import Mathlib

/-!
Shallow embedding of the rtic-scope itm-decode streaming packet decoder
(src/src/lib.rs). Machine integers are modelled as Nat; the bit buffer
(a bitvec popped from the back, i.e. oldest bit first) is modelled as a
List Bool whose head is the next bit pulled. Rust panics
(unreachable, unwrap on exhausted data) are modelled by a dedicated
crash result where a claim depends on them.
-/

namespace ItmDecode

/-- TimestampDataRelation (lib.rs:253): relation between a local
timestamp packet and the corresponding data packet. -/
inductive TimestampDataRelation
  | sync
  | unknownDelay
  | assocEventDelay
  | unknownAssocEventDelay
deriving DecidableEq

/-- ExceptionAction (lib.rs:218). -/
inductive ExceptionAction
  | entered
  | exited
  | returned
deriving DecidableEq

/-- MemoryAccessType (lib.rs:236). -/
inductive MemoryAccessType
  | read
  | write
deriving DecidableEq

/-- Exception names of the cortex-m crate (re-exported at lib.rs:24). -/
inductive CortexException
  | nonMaskableInt
  | hardFault
  | memoryManagement
  | busFault
  | usageFault
  | secureFault
  | svCall
  | debugMonitor
  | pendSV
  | sysTick
deriving DecidableEq

/-- VectActive of the cortex-m crate (re-exported at lib.rs:24). -/
inductive VectActive
  | threadMode
  | exception (e : CortexException)
  | interrupt (irqn : Nat)
deriving DecidableEq

/-- TracePacket (lib.rs:69): the set of valid packet types. Byte
payloads are lists of byte values. -/
inductive TracePacket
  | sync
  | overflow
  | localTimestamp1 (ts : Nat) (dataRelation : TimestampDataRelation)
  | localTimestamp2 (ts : Nat)
  | globalTimestamp1 (ts : Nat) (wrap : Bool) (clkch : Bool)
  | globalTimestamp2 (ts : Nat)
  | extension (page : Nat)
  | instrumentation (port : Nat) (payload : List Nat)
  | eventCounterWrap (cyc fold lsu sleep exc cpi : Bool)
  | exceptionTrace (exception : VectActive) (action : ExceptionAction)
  | pcSample (pc : Option Nat)
  | dataTracePC (comparator : Nat) (pc : Nat)
  | dataTraceAddress (comparator : Nat) (data : List Nat)
  | dataTraceValue (comparator : Nat) (accessType : MemoryAccessType) (value : List Nat)
deriving DecidableEq

/-- MalformedPacket (lib.rs:292). -/
inductive MalformedPacket
  | invalidHeader (header : Nat)
  | invalidHardwarePacket (discId : Nat) (payload : List Nat)
  | invalidHardwareDisc (discId : Nat) (size : Nat)
  | invalidExceptionTrace (exception : Nat) (function : Nat)
  | invalidPCSampleSize (payload : List Nat)
  | invalidGTS2Size (payload : List Nat)
  | invalidSync (zeroCount : Nat)
  | invalidSourcePayload (header : Nat) (size : Nat)
deriving DecidableEq

/-- SYNC_MIN_ZEROS (lib.rs:368). -/
def syncMinZeros : Nat := 47

/-- PacketStub (lib.rs:374): a classified header awaiting its body. -/
inductive PacketStub
  | sync (count : Nat)
  | instrumentation (port : Nat) (expectedSize : Nat)
  | hardwareSource (discId : Nat) (expectedSize : Nat)
  | localTimestamp (dataRelation : TimestampDataRelation)
  | globalTimestamp1
  | globalTimestamp2
deriving DecidableEq

/-- HeaderVariant (lib.rs:505). -/
inductive HeaderVariant
  | packet (p : TracePacket)
  | stub (s : PacketStub)
deriving DecidableEq

/-- translate_ss (lib.rs:909): payload size declared by the ss field of
a source packet header; ss counts the header byte, hence the minus one. -/
def translateSs (ss : Nat) : Option Nat :=
  match ss with
  | 0b01 => some (2 - 1)
  | 0b10 => some (3 - 1)
  | 0b11 => some (5 - 1)
  | _ => none

/-- decode_header (lib.rs:908): the bitmatch arms in source order.
Letters of a bitmatch pattern are extracted by shift and mask; the
final InvalidHeader arm is kept although every byte is caught by one
of the two source-packet patterns before it. -/
def decodeHeader (header : Nat) : Except MalformedPacket HeaderVariant :=
  -- "0000_0000": Synchronization packet category
  if header = 0b00000000 then .ok (.stub (.sync 8))
  -- "0111_0000": Overflow
  else if header = 0b01110000 then .ok (.packet .overflow)
  -- "11rr_0000": Local timestamp, format 1 (LTS1); tc = (header >> 4) & 0b11
  else if header &&& 0b11001111 = 0b11000000 then
    .ok (.stub (.localTimestamp
      (if (header >>> 4) &&& 0b11 = 0b00 then .sync
       else if (header >>> 4) &&& 0b11 = 0b01 then .unknownDelay
       else if (header >>> 4) &&& 0b11 = 0b10 then .assocEventDelay
       else .unknownAssocEventDelay)))
  -- "0ttt_0000": Local timestamp, format 2 (LTS2)
  else if header &&& 0b10001111 = 0b00000000 then
    .ok (.packet (.localTimestamp2 ((header >>> 4) &&& 0b111)))
  -- "1001_0100": Global timestamp, format 1 (GTS1)
  else if header = 0b10010100 then .ok (.stub .globalTimestamp1)
  -- "1011_0100": Global timestamp, format 2 (GTS2)
  else if header = 0b10110100 then .ok (.stub .globalTimestamp2)
  -- "0ppp_1000": Extension packet
  else if header &&& 0b10001111 = 0b00001000 then
    .ok (.packet (.extension ((header >>> 4) &&& 0b111)))
  -- "aaaa_a0ss": Instrumentation packet
  else if header &&& 0b00000100 = 0 then
    match translateSs (header &&& 0b11) with
    | some sz => .ok (.stub (.instrumentation ((header >>> 3) &&& 0b11111) sz))
    | none => .error (.invalidSourcePayload header (header &&& 0b11))
  -- "aaaa_a1ss": Hardware source packet; disc_id = (header >> 3) & 0b11111
  else if header &&& 0b00000100 = 0b100 then
    if ¬ (header >>> 3) &&& 0b11111 ≤ 2 ∧
        ¬ (8 ≤ (header >>> 3) &&& 0b11111 ∧ (header >>> 3) &&& 0b11111 ≤ 23) then
      .error (.invalidHardwareDisc ((header >>> 3) &&& 0b11111) (header &&& 0b11))
    else
      match translateSs (header &&& 0b11) with
      | some sz => .ok (.stub (.hardwareSource ((header >>> 3) &&& 0b11111) sz))
      | none => .error (.invalidSourcePayload header (header &&& 0b11))
  -- "hhhh_hhhh"
  else .error (.invalidHeader header)

/-- u32::from_le_bytes (lib.rs:1064, lib.rs:1080): little-endian u32
from a 4-byte payload. -/
def leU32 (payload : List Nat) : Nat :=
  payload.getD 0 0 ||| (payload.getD 1 0 <<< 8) |||
    (payload.getD 2 0 <<< 16) ||| (payload.getD 3 0 <<< 24)

/-- VectActive::from of the cortex-m crate (called at lib.rs:1038);
numeric mapping of ARMv7-M exception numbers (spec section 3.1): 0 is
thread mode, 2..=15 the named system exceptions, 16 and up external
interrupts. -/
def vectActiveFrom (n : Nat) : Option VectActive :=
  match n with
  | 0 => some .threadMode
  | 2 => some (.exception .nonMaskableInt)
  | 3 => some (.exception .hardFault)
  | 4 => some (.exception .memoryManagement)
  | 5 => some (.exception .busFault)
  | 6 => some (.exception .usageFault)
  | 7 => some (.exception .secureFault)
  | 11 => some (.exception .svCall)
  | 12 => some (.exception .debugMonitor)
  | 14 => some (.exception .pendSV)
  | 15 => some (.exception .sysTick)
  | n => if 16 ≤ n then some (.interrupt (n - 16)) else none

/-- handle_hardware_source (lib.rs:1000): decodes the payload of a
hardware source packet. The final match arm of the source is
unreachable and panics; it is modelled by the value none, every
reachable arm by some. Byte indexing after a length check is modelled
with getD. -/
def handleHardwareSource (discId : Nat) (payload : List Nat) :
    Option (Except MalformedPacket TracePacket) :=
  match discId with
  | 0 =>
    -- event counter wrap
    some (if payload.length ≠ 1 then .error (.invalidHardwarePacket discId payload)
      else
        let b := payload.getD 0 0
        .ok (.eventCounterWrap
          (b &&& (1 <<< 5) != 0) (b &&& (1 <<< 4) != 0) (b &&& (1 <<< 3) != 0)
          (b &&& (1 <<< 2) != 0) (b &&& (1 <<< 1) != 0) (b &&& (1 <<< 0) != 0)))
  | 1 =>
    -- exception trace
    some (if payload.length ≠ 2 then .error (.invalidHardwarePacket discId payload)
      else
        let function := (payload.getD 1 0 >>> 4) &&& 0b11
        let exceptionNumber := ((payload.getD 1 0 &&& 1) <<< 8) ||| payload.getD 0 0
        -- u8::try_from fails when the 9-bit number exceeds 255
        if ¬ exceptionNumber < 256 then
          .error (.invalidExceptionTrace exceptionNumber function)
        else
          match vectActiveFrom exceptionNumber with
          | none => .error (.invalidExceptionTrace exceptionNumber function)
          | some exception =>
            if function = 0b01 then .ok (.exceptionTrace exception .entered)
            else if function = 0b10 then .ok (.exceptionTrace exception .exited)
            else if function = 0b11 then .ok (.exceptionTrace exception .returned)
            else .error (.invalidExceptionTrace exceptionNumber function))
  | 2 =>
    -- PC sample
    some (if payload.length = 1 ∧ payload.getD 0 0 = 0 then .ok (.pcSample none)
      else if payload.length = 4 then .ok (.pcSample (some (leU32 payload)))
      else .error (.invalidPCSampleSize payload))
  | d =>
    if 8 ≤ d ∧ d ≤ 23 then
      -- data trace; bitmatch "???t_tccd"
      let t := (d >>> 3) &&& 0b11
      let comparator := (d >>> 1) &&& 0b11
      let dir := d &&& 0b1
      some (
        if t = 0b01 ∧ dir = 0 ∧ payload.length = 4 then
          .ok (.dataTracePC comparator (leU32 payload))
        else if t = 0b01 ∧ dir = 1 ∧ payload.length = 2 then
          .ok (.dataTraceAddress comparator payload)
        else if t = 0b10 then
          .ok (.dataTraceValue comparator (if dir = 0 then .read else .write) payload)
        else .error (.invalidHardwarePacket d payload))
    else none

/-- Mask applied to the final payload byte in extract_timestamp
(lib.rs:900): 0xFFu8.wrapping_shl(shift) >> shift with
shift = 7 - max_len % 7 (u8 arithmetic wraps modulo 256). -/
def tsMask (maxLen : Nat) : Nat :=
  ((0xFF <<< (7 - maxLen % 7)) % 256) >>> (7 - maxLen % 7)

/-- The loop of extract_timestamp over the first N - 1 payload bytes
(lib.rs:893): ts is ORed with (b & 0x7F) << 7*i for the i-th byte. -/
def extractRtail : List Nat → Nat → Nat
  | [], _ => 0
  | b :: rest, i => ((b &&& 0x7F) <<< (7 * i)) ||| extractRtail rest (i + 1)

/-- extract_timestamp (lib.rs:889). The source indexes the final byte
of a nonempty payload (it panics on an empty one, which no caller
passes); getLastD models that indexing. Values stay below 2 to the 64
for payloads of at most 10 bytes, so the Nat model agrees with the u64
source there. -/
def extractTimestamp (payload : List Nat) (maxLen : Nat) : Nat :=
  extractRtail payload.dropLast 0 |||
    ((payload.getLastD 0 &&& tsMask maxLen) <<< (7 * payload.dropLast.length))

deriving instance DecidableEq for Except

/-- Bits of one pushed byte in pull order: Decoder::pull_byte
(lib.rs:765) pops bit i of the oldest byte into position i, so the
first bit pulled is bit 0. -/
def byteBits (b : Nat) : List Bool :=
  [b.testBit 0, b.testBit 1, b.testBit 2, b.testBit 3,
   b.testBit 4, b.testBit 5, b.testBit 6, b.testBit 7]

/-- The bit stream of a pushed byte slice, oldest bit first. In the
source (Decoder::push, lib.rs:575) the bytes become a reversed bitvec
popped from the back; here the list head is the next bit pulled. -/
def bytesBits (data : List Nat) : List Bool :=
  (data.map byteBits).flatten

/-- Loop body of Decoder::pull_byte (lib.rs:765): b |= bit << i for
i = 0..8 over the pulled bits. -/
def bitsByte : List Bool → Nat → Nat
  | [], _ => 0
  | b :: rest, i => ((cond b 1 0) <<< i) ||| bitsByte rest (i + 1)

/-- The byte-counting loop of Decoder::pull_payload (lib.rs:791): walk
the buffer a byte at a time; a byte whose bit 7 (the last of its eight
buffered bits) is clear terminates the payload; running out of whole
bytes yields none. -/
def payloadLen : List Bool → Option Nat
  | _ :: _ :: _ :: _ :: _ :: _ :: _ :: b7 :: rest =>
    -- b7 is bit 7 of the byte, the continuation bit
    if b7 = false then some 1
    else
      match payloadLen rest with
      | none => none
      | some n => some (n + 1)
  | _ => none

/-- Decoder::pull_bytes (lib.rs:776), happy path: pull cnt bytes off
the front of the bit buffer (the caller checks availability first). -/
def pullBytesList : Nat → List Bool → List Nat × List Bool
  | 0, bits => ([], bits)
  | n + 1, bits =>
    let b := bitsByte (bits.take 8) 0
    let (rest, bits2) := pullBytesList n (bits.drop 8)
    (b :: rest, bits2)

/-- Timestamp (lib.rs:411). -/
structure Timestamp where
  base : Option Nat
  delta : Option Nat
  dataRelation : Option TimestampDataRelation
  diverged : Bool
deriving DecidableEq

/-- Timestamp::default (lib.rs:440). -/
def Timestamp.default : Timestamp :=
  { base := none, delta := none, dataRelation := none, diverged := false }

/-- TimestampedTracePackets (lib.rs:495). -/
structure TimestampedTracePackets where
  timestamp : Timestamp
  packets : List TracePacket
  malformedPackets : List MalformedPacket
  packetsConsumed : Nat
deriving DecidableEq

/-- TimestampedContext (lib.rs:451). -/
structure TimestampedContext where
  packets : List TracePacket
  malformedPackets : List MalformedPacket
  gts1 : Option Nat
  gts2 : Option Nat
  ts : Timestamp
  packetsConsumed : Nat
deriving DecidableEq

/-- TimestampedContext::default (lib.rs:475). -/
def TimestampedContext.default : TimestampedContext :=
  { packets := [], malformedPackets := [], gts1 := none, gts2 := none,
    ts := Timestamp.default, packetsConsumed := 0 }

/-- Decoder state (lib.rs:529) together with its DecoderOptions
(lib.rs:510). The reader is external input plumbing (buffer_byte is
todo in the source) and carries no decoding state. -/
structure DecoderState where
  onlyGts : Bool
  keepReading : Bool
  buffer : List Bool
  sync : Option Nat
  tsCtx : TimestampedContext
deriving DecidableEq

/-- Decoder::new (lib.rs:554) for a given only_gts option. -/
def freshDecoder (onlyGts : Bool) : DecoderState :=
  { onlyGts := onlyGts, keepReading := true, buffer := [], sync := none,
    tsCtx := TimestampedContext.default }

/-- Decoder::push (lib.rs:575): append the data bits behind the bits
already buffered, preserving arrival order. -/
def push (s : DecoderState) (data : List Nat) : DecoderState :=
  { s with buffer := s.buffer ++ bytesBits data }

/-- Result of one Decoder::next call. crash models a Rust panic
(the unreachable fall-through of handle_sync at lib.rs:632, or the
unreachable arm of handle_hardware_source at lib.rs:1105). -/
inductive NextRes
  | ok (p : Option TracePacket)
  | err (m : MalformedPacket)
  | crash
deriving DecidableEq

/-- Decoder::handle_sync (lib.rs:615): pop bits while they are zero
and the count is below SYNC_MIN_ZEROS; a set bit with the count at or
above the minimum emits Sync; any other bit emits InvalidSync; an
exhausted buffer falls through the pop loop onto unreachable and
panics (the sync field keeps its entry value there). Returns the
result, the new sync field and the remaining buffer. -/
def handleSync : Nat → List Bool → NextRes × Option Nat × List Bool
  | count, [] => (.crash, some count, [])
  | count, bit :: rest =>
    if bit = false ∧ count < syncMinZeros then handleSync (count + 1) rest
    else if bit = true ∧ syncMinZeros ≤ count then (.ok (some .sync), none, rest)
    else (.err (.invalidSync count), none, rest)

/-- Decoder::process_stub (lib.rs:813): complete a classified header.
A stub whose body bytes are not yet buffered yields Ok(None) with the
header byte already consumed, exactly as in the source. -/
def processStub (s : DecoderState) (stub : PacketStub) : NextRes × DecoderState :=
  match stub with
  | .sync count =>
    let s2 := { s with sync := some count }
    let (r, sy, b) := handleSync count s2.buffer
    (r, { s2 with sync := sy, buffer := b })
  | .hardwareSource discId expectedSize =>
    if s.buffer.length < expectedSize * 8 then (.ok none, s)
    else
      let (payload, b) := pullBytesList expectedSize s.buffer
      match handleHardwareSource discId payload with
      | none => (.crash, { s with buffer := b })
      | some (.ok p) => (.ok (some p), { s with buffer := b })
      | some (.error m) => (.err m, { s with buffer := b })
  | .localTimestamp dataRelation =>
    match payloadLen s.buffer with
    | none => (.ok none, s)
    | some cnt =>
      let (payload, b) := pullBytesList cnt s.buffer
      (.ok (some (.localTimestamp1 (extractTimestamp payload 27) dataRelation)),
        { s with buffer := b })
  | .globalTimestamp1 =>
    match payloadLen s.buffer with
    | none => (.ok none, s)
    | some cnt =>
      let (payload, b) := pullBytesList cnt s.buffer
      let lastByte := payload.getLastD 0
      (.ok (some (.globalTimestamp1 (extractTimestamp payload 25)
        ((lastByte &&& (1 <<< 6)) >>> 6 == 1)
        ((lastByte &&& (1 <<< 5)) >>> 5 == 1))), { s with buffer := b })
  | .globalTimestamp2 =>
    match payloadLen s.buffer with
    | none => (.ok none, s)
    | some cnt =>
      let (payload, b) := pullBytesList cnt s.buffer
      if payload.length = 4 then
        -- 48 bit timestamp
        (.ok (some (.globalTimestamp2 (extractTimestamp payload (47 - 26)))),
          { s with buffer := b })
      else if payload.length = 6 then
        -- 64 bit timestamp
        (.ok (some (.globalTimestamp2 (extractTimestamp payload (63 - 26)))),
          { s with buffer := b })
      else (.err (.invalidGTS2Size payload), { s with buffer := b })
  | .instrumentation port expectedSize =>
    if s.buffer.length < expectedSize * 8 then (.ok none, s)
    else
      let (payload, b) := pullBytesList expectedSize s.buffer
      (.ok (some (.instrumentation port payload)), { s with buffer := b })

/-- Decoder::next (lib.rs:591): resume sync handling if syncing, stall
below one buffered byte, otherwise consume and classify a header byte
and either emit the packet or process the stub. -/
def nextD (s : DecoderState) : NextRes × DecoderState :=
  match s.sync with
  | some count =>
    let (r, sy, b) := handleSync count s.buffer
    (r, { s with sync := sy, buffer := b })
  | none =>
    if s.buffer.length < 8 then (.ok none, s)
    else
      let s2 := { s with tsCtx :=
        { s.tsCtx with packetsConsumed := s.tsCtx.packetsConsumed + 1 } }
      let header := bitsByte (s2.buffer.take 8) 0
      let s3 := { s2 with buffer := s2.buffer.drop 8 }
      match decodeHeader header with
      | .error m => (.err m, s3)
      | .ok (.packet p) => (.ok (some p), s3)
      | .ok (.stub st) => processStub s3 st

/-- The base-installation check at the foot of the pull_with_timestamp
loop (lib.rs:753): with both a pending gts1 and gts2, reset the
timestamp to default, install base = (upper << 26) | lower and clear
both pending values. -/
def installBase (ctx : TimestampedContext) : TimestampedContext :=
  match ctx.gts1, ctx.gts2 with
  | some lower, some upper =>
    { ctx with
      ts := { base := some ((upper <<< 26) ||| lower), delta := none,
              dataRelation := none, diverged := false },
      gts1 := none, gts2 := none }
  | _, _ => ctx

/-- assoc_packets_with_lts (lib.rs:651): add the local timestamp to the
delta, set the data relation, drain the accumulated packets into a
batch and reset packets_consumed. Returns the batch and the drained
context. -/
def assocPacketsWithLts (ctx : TimestampedContext) (lts : Nat)
    (dataRelation : TimestampDataRelation) :
    TimestampedTracePackets × TimestampedContext :=
  let newDelta :=
    match ctx.ts.delta with
    | some delta => some (delta + lts)
    | none => some lts
  let ts2 := { ctx.ts with delta := newDelta, dataRelation := some dataRelation }
  ({ timestamp := ts2, packets := ctx.packets,
     malformedPackets := ctx.malformedPackets,
     packetsConsumed := ctx.packetsConsumed },
   { ctx with packets := [], malformedPackets := [], ts := ts2, packetsConsumed := 0 })

/-- Outcome of one iteration of the pull_with_timestamp loop. -/
inductive PullStep
  | emit (out : TimestampedTracePackets) (ctx : TimestampedContext)
  | stop (ctx : TimestampedContext)
  | cont (ctx : TimestampedContext)
  | crash
deriving DecidableEq

/-- The only_gts return arm of pull_with_timestamp (lib.rs:741): the
packet is returned at once as a single-packet batch carrying the
current timestamp, leaving the context untouched. -/
def onlyGtsBatch (ctx : TimestampedContext) (p : TracePacket) : PullStep :=
  .emit { timestamp := ctx.ts, packets := [p], malformedPackets := [],
          packetsConsumed := 1 } ctx

/-- One iteration of the pull_with_timestamp loop body (lib.rs:675),
match arms in source order; arms that do not return fall through to
the base-installation check (installBase). -/
def pullStep (onlyGts : Bool) (ctx : TimestampedContext) (r : NextRes) : PullStep :=
  match r with
  | .crash => .crash
  | .ok none => .stop ctx
  | .err m =>
    .cont (installBase { ctx with malformedPackets := ctx.malformedPackets ++ [m] })
  | .ok (some p) =>
    match p with
    | .localTimestamp1 ts dataRelation =>
      if onlyGts then onlyGtsBatch ctx p
      else
        let (out, ctx2) := assocPacketsWithLts ctx ts dataRelation
        .emit out ctx2
    | .localTimestamp2 ts =>
      if onlyGts then onlyGtsBatch ctx p
      else
        let (out, ctx2) := assocPacketsWithLts ctx ts .sync
        .emit out ctx2
    | .globalTimestamp1 ts wrap clkch =>
      let ctx2 := { ctx with gts1 := some ts }
      let ctx3 := if wrap then { ctx2 with gts2 := none } else ctx2
      let ctx4 := if clkch then { ctx3 with gts1 := none, gts2 := none } else ctx3
      .cont (installBase ctx4)
    | .globalTimestamp2 ts => .cont (installBase { ctx with gts2 := some ts })
    | .overflow =>
      let ctx2 := { ctx with ts := { ctx.ts with diverged := true } }
      .cont (installBase { ctx2 with packets := ctx2.packets ++ [.overflow] })
    | p2 =>
      if onlyGts then onlyGtsBatch ctx p2
      else .cont (installBase { ctx with packets := ctx.packets ++ [p2] })

/-- Result of Decoder::pull_with_timestamp (lib.rs:649). noFuel only
marks exhaustion of the recursion bound of the model. -/
inductive PullOut
  | out (r : Option TimestampedTracePackets) (s : DecoderState)
  | crash
  | noFuel
deriving DecidableEq

/-- Decoder::pull_with_timestamp (lib.rs:649): loop Decoder::next and
fold each result through the loop body until a batch is emitted or the
packets run out. -/
def pullWithTimestamp : Nat → DecoderState → PullOut
  | 0, _ => .noFuel
  | fuel + 1, s =>
    let (r, s2) := nextD s
    match pullStep s2.onlyGts s2.tsCtx r with
    | .crash => .crash
    | .emit out ctx => .out (some out) { s2 with tsCtx := ctx }
    | .stop ctx => .out none { s2 with tsCtx := ctx }
    | .cont ctx => pullWithTimestamp fuel { s2 with tsCtx := ctx }

/-- Drain a decoder with repeated Decoder::next calls, collecting the
emitted packets and errors until the decoder stalls with Ok(None)
(or panics). -/
def drain : Nat → DecoderState → List (Except MalformedPacket TracePacket) × DecoderState
  | 0, s => ([], s)
  | fuel + 1, s =>
    match nextD s with
    | (.ok none, s2) => ([], s2)
    | (.crash, s2) => ([], s2)
    | (.ok (some p), s2) =>
      let (rest, s3) := drain fuel s2
      (.ok p :: rest, s3)
    | (.err m, s2) =>
      let (rest, s3) := drain fuel s2
      (.error m :: rest, s3)

/-- Feed a partition of a byte stream chunk by chunk into a fresh
decoder, draining with Decoder::next between pushes, and collect the
emitted packet sequence. -/
def runChunks (chunks : List (List Nat)) : List (Except MalformedPacket TracePacket) :=
  (chunks.foldl
    (fun acc chunk =>
      let s2 := push acc.2 chunk
      let (out, s3) := drain (s2.buffer.length + 1) s2
      (acc.1 ++ out, s3))
    (([] : List (Except MalformedPacket TracePacket)), freshDecoder false)).1

/-- The encoder matching the spec round-trip claim (spec sections 4.3.5
and 8.1): seven value bits per byte packed little-endian, bit 7 set on
every byte except the last. -/
def encodeTs (v : Nat) : Nat → List Nat
  | 0 => []
  | 1 => [v &&& 0x7F]
  | n + 2 => (0x80 ||| (v &&& 0x7F)) :: encodeTs (v >>> 7) (n + 1)

/-- The packets that the only_gts mode of pull_with_timestamp does not
return immediately: global timestamps are stashed and Overflow is
accumulated (lib.rs:709, lib.rs:721, lib.rs:729). -/
def onlyGtsDeferred (p : TracePacket) : Bool :=
  match p with
  | .globalTimestamp1 _ _ _ => true
  | .globalTimestamp2 _ => true
  | .overflow => true
  | _ => false

/-- Shifting distributes over bitwise or. -/
theorem shiftLeft_or_distrib (a b k : Nat) : (a ||| b) <<< k = (a <<< k) ||| (b <<< k) :=
  Nat.eq_of_testBit_eq fun i => by
    simp [Nat.testBit_shiftLeft, Nat.testBit_or, Bool.and_or_distrib_left]

/-- Composed shifts add their amounts. -/
theorem shiftLeft_add_shiftLeft (a m n : Nat) : (a <<< m) <<< n = a <<< (m + n) := by
  simp [Nat.shiftLeft_eq, Nat.pow_add, Nat.mul_assoc]

/-- Bumping the byte index of the extract_timestamp loop shifts its
value by seven bits. -/
theorem extractRtail_succ (l : List Nat) (i : Nat) :
    extractRtail l (i + 1) = (extractRtail l i) <<< 7 := by
  induction l generalizing i with
  | nil => simp [extractRtail]
  | cons b l ih =>
    simp only [extractRtail]
    rw [ih, shiftLeft_or_distrib, shiftLeft_add_shiftLeft]
    have h7 : 7 * i + 7 = 7 * (i + 1) := by ring
    rw [h7]

/-- The final-byte mask of extract_timestamp keeps the low
1 + max_len mod 7 bits. -/
theorem tsMask_eq (m : Nat) : tsMask m = 2 ^ (1 + m % 7) - 1 := by
  have h : m % 7 < 7 := Nat.mod_lt _ (by norm_num)
  unfold tsMask
  generalize m % 7 = k at h ⊢
  interval_cases k <;> rfl

/-- Splitting a value at bit seven and reassembling with or is the
identity. -/
theorem low7_or_high (v : Nat) : (v &&& 127) ||| ((v >>> 7) <<< 7) = v :=
  Nat.eq_of_testBit_eq fun i => by
    rw [Nat.testBit_or, Nat.testBit_and, Nat.testBit_shiftLeft, Nat.testBit_shiftRight]
    rw [show (127 : Nat) = 2 ^ 7 - 1 from rfl, Nat.testBit_two_pow_sub_one]
    by_cases h : i < 7
    · simp [h, Nat.not_le.mpr h]
    · have h7 : 7 + (i - 7) = i := by omega
      simp [h, Nat.le_of_not_lt h, h7, Nat.not_lt.mpr (Nat.le_of_not_lt h)]

/-- The loop of extract_timestamp over the first bytes stays below the
bit budget of seven bits per byte. -/
theorem extractRtail_lt (l : List Nat) (i : Nat) :
    extractRtail l i < 2 ^ (7 * i + 7 * l.length) := by
  induction l generalizing i with
  | nil => simp [extractRtail]
  | cons b l ih =>
    simp only [extractRtail, List.length_cons]
    apply Nat.or_lt_two_pow
    · have hb : b &&& 127 < 2 ^ 7 := Nat.and_lt_two_pow b (by norm_num)
      calc (b &&& 127) <<< (7 * i) = (b &&& 127) * 2 ^ (7 * i) := Nat.shiftLeft_eq _ _
        _ < 2 ^ 7 * 2 ^ (7 * i) := by
            exact Nat.mul_lt_mul_of_lt_of_le hb (Nat.le_refl _) (by positivity)
        _ = 2 ^ (7 + 7 * i) := (Nat.pow_add 2 7 (7 * i)).symm
        _ ≤ 2 ^ (7 * i + 7 * (l.length + 1)) := Nat.pow_le_pow_right (by norm_num) (by omega)
    · have := ih (i + 1)
      have he : 7 * (i + 1) + 7 * l.length = 7 * i + 7 * (l.length + 1) := by ring
      rwa [he] at this

/-- The final-byte mask is at most seven bits wide. -/
theorem tsMask_lt (m : Nat) : tsMask m < 2 ^ 7 := by
  rw [tsMask_eq]
  have : m % 7 < 7 := Nat.mod_lt _ (by norm_num)
  have h : 2 ^ (1 + m % 7) ≤ 2 ^ 7 := Nat.pow_le_pow_right (by norm_num) (by omega)
  omega

/-- Every value produced by extract_timestamp fits in seven bits per
payload byte. -/
theorem extractTimestamp_lt (p : List Nat) (m : Nat) :
    extractTimestamp p m < 2 ^ (7 * p.length) := by
  unfold extractTimestamp
  apply Nat.or_lt_two_pow
  · have := extractRtail_lt p.dropLast 0
    have hd : p.dropLast.length ≤ p.length := by
      rw [List.length_dropLast]; omega
    calc extractRtail p.dropLast 0 < 2 ^ (7 * 0 + 7 * p.dropLast.length) := this
      _ ≤ 2 ^ (7 * p.length) := Nat.pow_le_pow_right (by norm_num) (by omega)
  · cases p with
    | nil => simp [List.dropLast]
    | cons b l =>
      have hmask : (b :: l).getLastD 0 &&& tsMask m < 2 ^ 7 :=
        Nat.and_lt_two_pow _ (tsMask_lt m)
      have hlen : (b :: l).dropLast.length = l.length := by
        simp
      calc ((b :: l).getLastD 0 &&& tsMask m) <<< (7 * (b :: l).dropLast.length)
          = ((b :: l).getLastD 0 &&& tsMask m) * 2 ^ (7 * (b :: l).dropLast.length) :=
            Nat.shiftLeft_eq _ _
        _ < 2 ^ 7 * 2 ^ (7 * (b :: l).dropLast.length) :=
            Nat.mul_lt_mul_of_lt_of_le hmask (Nat.le_refl _) (by positivity)
        _ = 2 ^ (7 + 7 * (b :: l).dropLast.length) := (Nat.pow_add 2 7 _).symm
        _ ≤ 2 ^ (7 * (b :: l).length) := by
            apply Nat.pow_le_pow_right (by norm_num)
            rw [hlen, List.length_cons]; omega

/-- The encoder always produces a cons cell for a positive byte count. -/
theorem encodeTs_cons (v n : Nat) : ∃ b l, encodeTs v (n + 1) = b :: l := by
  cases n <;> exact ⟨_, _, rfl⟩

/-- Round-trip of the continuation encoding through extract_timestamp,
stated for a byte count of n + 1. -/
theorem extractTimestamp_encode_aux (maxBits : Nat) :
    ∀ n v, v < 2 ^ (7 * n + (1 + maxBits % 7)) →
      extractTimestamp (encodeTs v (n + 1)) maxBits = v := by
  intro n
  induction n with
  | zero =>
    intro v hv
    have hw : 1 + maxBits % 7 ≤ 7 := by
      have : maxBits % 7 < 7 := Nat.mod_lt _ (by norm_num)
      omega
    have hv7 : v < 2 ^ 7 := by
      calc v < 2 ^ (7 * 0 + (1 + maxBits % 7)) := hv
        _ ≤ 2 ^ 7 := Nat.pow_le_pow_right (by norm_num) (by omega)
    show extractTimestamp [v &&& 0x7F] maxBits = v
    unfold extractTimestamp
    simp only [List.dropLast_single, extractRtail, List.length_nil, Nat.mul_zero,
      Nat.shiftLeft_zero, Nat.zero_or]
    rw [show ([v &&& 0x7F] : List Nat).getLastD 0 = v &&& 0x7F from rfl]
    rw [show (0x7F : Nat) = 2 ^ 7 - 1 from rfl,
      Nat.and_pow_two_sub_one_of_lt_two_pow hv7, tsMask_eq,
      Nat.and_pow_two_sub_one_of_lt_two_pow (by simpa using hv)]
  | succ n ih =>
    intro v hv
    obtain ⟨c, t, hct⟩ := encodeTs_cons (v >>> 7) n
    have hv7 : v >>> 7 < 2 ^ (7 * n + (1 + maxBits % 7)) := by
      rw [Nat.shiftRight_eq_div_pow]
      apply Nat.div_lt_of_lt_mul
      have he : 7 * (n + 1) + (1 + maxBits % 7) = 7 + (7 * n + (1 + maxBits % 7)) := by ring
      calc v < 2 ^ (7 * (n + 1) + (1 + maxBits % 7)) := hv
        _ = 2 ^ 7 * 2 ^ (7 * n + (1 + maxBits % 7)) := by rw [he, Nat.pow_add]
    have hinner : extractTimestamp (encodeTs (v >>> 7) (n + 1)) maxBits = v >>> 7 :=
      ih (v >>> 7) hv7
    show extractTimestamp ((0x80 ||| (v &&& 0x7F)) :: encodeTs (v >>> 7) (n + 1)) maxBits = v
    rw [hct] at hinner ⊢
    unfold extractTimestamp at hinner ⊢
    rw [List.getLastD_cons] at hinner
    rw [List.dropLast_cons₂, List.getLastD_cons, List.getLastD_cons]
    simp only [extractRtail, List.length_cons, Nat.mul_zero, Nat.shiftLeft_zero]
    rw [extractRtail_succ]
    have hsh : (t.getLastD c &&& tsMask maxBits) <<< (7 * ((c :: t).dropLast.length + 1))
        = ((t.getLastD c &&& tsMask maxBits) <<< (7 * (c :: t).dropLast.length)) <<< 7 := by
      rw [shiftLeft_add_shiftLeft]
      have h7 : 7 * (c :: t).dropLast.length + 7 = 7 * ((c :: t).dropLast.length + 1) := by
        ring
      rw [h7]
    rw [hsh, Nat.or_assoc, ← shiftLeft_or_distrib, hinner]
    have hb : (0x80 ||| (v &&& 0x7F)) &&& 0x7F = v &&& 127 := by
      rw [Nat.and_distrib_right]
      rw [show (0x80 : Nat) &&& 0x7F = 0 from rfl, Nat.zero_or, Nat.and_assoc]
      rfl
    rw [hb, low7_or_high]

/-- The happy path of pull_bytes returns exactly the requested number
of bytes. -/
theorem pullBytesList_fst_length (n : Nat) (bits : List Bool) :
    (pullBytesList n bits).1.length = n := by
  induction n generalizing bits with
  | zero => rfl
  | succ n ih => simp [pullBytesList, ih]

/-- Case split on the base-installation check: either nothing changes,
or a fresh base is installed with delta, data relation and the pending
pair cleared. -/
theorem installBase_cases (c : TimestampedContext) :
    installBase c = c ∨
      ((installBase c).gts1 = none ∧ (installBase c).gts2 = none ∧
       (installBase c).ts.delta = none ∧ (installBase c).ts.dataRelation = none ∧
       ∃ b, (installBase c).ts.base = some b) := by
  unfold installBase
  rcases hg1 : c.gts1 with _ | l <;> rcases hg2 : c.gts2 with _ | u <;> simp

/-- On a non-returning loop arm whose context is diverged, the
post-installation context either stays diverged or carries a freshly
installed base. -/
theorem installBase_diverged (c : TimestampedContext) (h : c.ts.diverged = true) :
    (installBase c).ts.diverged = true ∨
      ((installBase c).gts1 = none ∧ (installBase c).gts2 = none ∧
       (installBase c).ts.delta = none ∧ (installBase c).ts.dataRelation = none ∧
       ∃ b, (installBase c).ts.base = some b) := by
  rcases installBase_cases c with hc | hc
  · rw [hc]; exact Or.inl h
  · exact Or.inr hc

/-- Inversion of decode_header: a hardware source stub only arises
with a discriminator inside 0..=2 or 8..=23. -/
theorem decodeHeader_hardware_range (header discId sz : Nat)
    (h : decodeHeader header = .ok (.stub (.hardwareSource discId sz))) :
    discId ≤ 2 ∨ (8 ≤ discId ∧ discId ≤ 23) := by
  unfold decodeHeader at h
  by_cases h1 : header = 0b00000000
  · rw [if_pos h1] at h; simp at h
  rw [if_neg h1] at h
  by_cases h2 : header = 0b01110000
  · rw [if_pos h2] at h; simp at h
  rw [if_neg h2] at h
  by_cases h3 : header &&& 0b11001111 = 0b11000000
  · rw [if_pos h3] at h; simp at h
  rw [if_neg h3] at h
  by_cases h4 : header &&& 0b10001111 = 0b00000000
  · rw [if_pos h4] at h; simp at h
  rw [if_neg h4] at h
  by_cases h5 : header = 0b10010100
  · rw [if_pos h5] at h; simp at h
  rw [if_neg h5] at h
  by_cases h6 : header = 0b10110100
  · rw [if_pos h6] at h; simp at h
  rw [if_neg h6] at h
  by_cases h7 : header &&& 0b10001111 = 0b00001000
  · rw [if_pos h7] at h; simp at h
  rw [if_neg h7] at h
  by_cases h8 : header &&& 0b00000100 = 0
  · rw [if_pos h8] at h
    rcases hts : translateSs (header &&& 0b11) with _ | z <;> rw [hts] at h <;> simp at h
  rw [if_neg h8] at h
  by_cases h9 : header &&& 0b00000100 = 0b100
  · rw [if_pos h9] at h
    by_cases hg : ¬ (header >>> 3) &&& 0b11111 ≤ 2 ∧
        ¬ (8 ≤ (header >>> 3) &&& 0b11111 ∧ (header >>> 3) &&& 0b11111 ≤ 23)
    · rw [if_pos hg] at h; simp at h
    · rw [if_neg hg] at h
      rcases hts : translateSs (header &&& 0b11) with _ | z <;> rw [hts] at h <;> simp at h
      obtain ⟨hd, -⟩ := h
      subst hd
      omega
  rw [if_neg h9] at h
  simp at h

/-- C1: chunk invariance fails in the code. Feeding the two-byte
instrumentation packet 0x09 0xAB as two chunks with a draining next()
call between the pushes yields no packet at all, while one push of
both bytes yields the packet: next() consumes the header byte before
discovering that the body is missing, returns Ok(None) and forgets the
stub, so the payload byte is later misread as a header. -/
theorem chunked_push_drops_consumed_header :
    runChunks [[0x09], [0xAB]] = [] ∧
    runChunks [[0x09, 0xAB]] = [.ok (.instrumentation 1 [0xAB])] :=
  ⟨by decide, by decide⟩

/-- C2: the resync scenario of the spec fails in the code. Pushing six
zero bytes followed by 0x80 (48 zero bits, then seven more zero bits,
then the set bit) makes next() return Err(InvalidSync(47)) rather than
Ok(Some(Sync)): handle_sync stops counting at 47 and treats the 48th
zero bit as a premature terminator, so only runs of exactly 47 zero
bits are accepted. -/
theorem sync_rejects_48th_zero_bit :
    nextD (push (freshDecoder false) [0x00, 0x00, 0x00, 0x00, 0x00, 0x00, 0x80]) =
      (.err (.invalidSync 47),
       { onlyGts := false, keepReading := true,
         buffer := [false, false, false, false, false, false, false, true],
         sync := none,
         tsCtx := { packets := [], malformedPackets := [], gts1 := none, gts2 := none,
                    ts := Timestamp.default, packetsConsumed := 1 } }) := by
  decide

/-- C3: exhausting the buffer while in the Syncing state does not
return Ok(None); it falls through the pop loop of handle_sync onto the
unreachable macro and panics (modelled by crash). Pushing a single
zero byte into a fresh decoder and calling next() reaches it, with the
sync field still holding the entry count of 8. -/
theorem sync_exhaustion_hits_unreachable :
    nextD (push (freshDecoder false) [0x00]) =
      (.crash,
       { onlyGts := false, keepReading := true, buffer := [], sync := some 8,
         tsCtx := { packets := [], malformedPackets := [], gts1 := none, gts2 := none,
                    ts := Timestamp.default, packetsConsumed := 1 } }) := by
  decide

/-- C4 counterexample: the round-trip fails as claimed. The value
2 to the 20 fits in max_bits = 21 bits (the GTS2 48-bit setting) and
its three-byte continuation encoding is 0x80 0x80 0x40, yet
extract_timestamp returns 0: the real mask keeps 1 + (max_bits mod 7)
bits of the last byte, which is a single bit here, not the
7 - ((7 - (max_bits mod 7)) mod 7) = 7 bits of the claim. -/
theorem extractTimestamp_not_spec_mask :
    encodeTs 0x100000 3 = [0x80, 0x80, 0x40] ∧
    extractTimestamp (encodeTs 0x100000 3) 21 = 0 ∧
    extractTimestamp (encodeTs 0x100000 3) 21 ≠ 0x100000 :=
  ⟨by decide, by decide, by decide⟩

/-- C4 amended: the mask applied to the last byte covers
1 + (max_bits mod 7) bits (tsMask_eq), and the round-trip holds for a
payload of N bytes exactly when the value fits in
7*(N-1) + 1 + (max_bits mod 7) bits. The bound N at most 10 keeps
every shift of the u64 source in range, where the Nat model and the
source agree. For the settings of the decoder the round-trip thus
holds for every v below 2 to the max_bits with N = 4 (max_bits 27, 25
and 21) and N = 6 (max_bits 37). -/
theorem extractTimestamp_roundtrip (maxBits N v : Nat) (h1 : 1 ≤ N) (h2 : N ≤ 10)
    (h3 : v < 2 ^ (7 * (N - 1) + (1 + maxBits % 7))) :
    extractTimestamp (encodeTs v N) maxBits = v := by
  obtain ⟨n, rfl⟩ : ∃ n, N = n + 1 := ⟨N - 1, by omega⟩
  exact extractTimestamp_encode_aux maxBits n v (by simpa using h3)

/-- C4 witness: a 27-bit value survives the round-trip at the
LocalTimestamp setting. -/
theorem extractTimestamp_roundtrip_witness :
    extractTimestamp (encodeTs 0x7654321 4) 27 = 0x7654321 :=
  extractTimestamp_roundtrip 27 4 0x7654321 (by decide) (by decide) (by decide)

/-- C5 counterexample: with only_gts set, an Overflow packet is not
returned immediately as a single-packet batch; the Overflow arm of the
loop precedes the only_gts arm, so the packet is accumulated into the
batch buffer and pull_with_timestamp returns None on the input 0x70. -/
theorem onlyGts_overflow_accumulates :
    pullWithTimestamp 2 (push (freshDecoder true) [0x70]) =
      .out none
        { onlyGts := true, keepReading := true, buffer := [], sync := none,
          tsCtx := { packets := [.overflow], malformedPackets := [], gts1 := none,
                     gts2 := none,
                     ts := { base := none, delta := none, dataRelation := none,
                             diverged := true },
                     packetsConsumed := 1 } } := by
  decide

/-- C5 amended: with only_gts set, every packet other than
GlobalTimestamp1, GlobalTimestamp2 and Overflow is returned
immediately by the loop body as a single-packet batch carrying the
current Timestamp, with the context left untouched (so nothing is
accumulated); Overflow is instead accumulated and the malformed
buffer collects decode errors. -/
theorem onlyGts_immediate_single_batch (ctx : TimestampedContext) (p : TracePacket)
    (h : onlyGtsDeferred p = false) :
    pullStep true ctx (.ok (some p)) =
      .emit { timestamp := ctx.ts, packets := [p], malformedPackets := [],
              packetsConsumed := 1 } ctx := by
  cases p <;> first
    | rfl
    | simp [onlyGtsDeferred] at h

/-- C5 witness: a Sync packet under only_gts is emitted alone with the
current timestamp. -/
theorem onlyGts_immediate_single_batch_witness :
    pullStep true TimestampedContext.default (.ok (some .sync)) =
      .emit { timestamp := Timestamp.default, packets := [.sync], malformedPackets := [],
              packetsConsumed := 1 } TimestampedContext.default :=
  onlyGts_immediate_single_batch TimestampedContext.default .sync (by decide)

/-- C6: whenever both pending global timestamp halves are set, the
base-installation check replaces the current Timestamp with base =
(gts2 << 26) | gts1, delta = none, data_relation = none and
diverged = false, and clears both pending values. -/
theorem installBase_composes (ctx : TimestampedContext) (lower upper : Nat)
    (h1 : ctx.gts1 = some lower) (h2 : ctx.gts2 = some upper) :
    installBase ctx =
      { ctx with
        ts := { base := some ((upper <<< 26) ||| lower), delta := none,
                dataRelation := none, diverged := false },
        gts1 := none, gts2 := none } := by
  unfold installBase
  rw [h1, h2]

/-- C6 witness: the base composed from pending halves 3 and 5. -/
theorem installBase_composes_witness :
    installBase { packets := [], malformedPackets := [], gts1 := some 3, gts2 := some 5,
                  ts := Timestamp.default, packetsConsumed := 0 } =
      { packets := [], malformedPackets := [], gts1 := none, gts2 := none,
        ts := { base := some ((5 <<< 26) ||| 3), delta := none, dataRelation := none,
                diverged := false },
        packetsConsumed := 0 } :=
  installBase_composes _ 3 5 rfl rfl

/-- C7 counterexample: the header 0x0A declares ss = 10, a two-byte
payload, so pushing 0x0A 0xAB into a fresh decoder stalls with
Ok(None) instead of emitting the claimed Instrumentation packet (the
payload byte stays buffered while the header byte is consumed). -/
theorem header_0x0A_needs_two_bytes :
    nextD (push (freshDecoder false) [0x0A, 0xAB]) =
      (.ok none,
       { onlyGts := false, keepReading := true, buffer := bytesBits [0xAB], sync := none,
         tsCtx := { packets := [], malformedPackets := [], gts1 := none, gts2 := none,
                    ts := Timestamp.default, packetsConsumed := 1 } }) := by
  decide

/-- C7 amended: the header for port 1 with a one-byte payload is 0x09
(pattern 00001_0_01), and pushing 0x09 0xAB into a fresh decoder makes
next() return the Instrumentation packet with port 1 and payload
0xAB. -/
theorem instrumentation_port1_scenario :
    nextD (push (freshDecoder false) [0x09, 0xAB]) =
      (.ok (some (.instrumentation 1 [0xAB])),
       { onlyGts := false, keepReading := true, buffer := [], sync := none,
         tsCtx := { packets := [], malformedPackets := [], gts1 := none, gts2 := none,
                    ts := Timestamp.default, packetsConsumed := 1 } }) := by
  decide

/-- C8 counterexample: a LocalTimestamp1 emitted by next() can carry a
ts of 28 bits. The four-byte payload 0x80 0x80 0x80 0x7F after the
LTS1 header 0xC0 decodes to ts = 0x7F << 21 = 266338304, which is not
below 2 to the 27. -/
theorem lts1_ts_can_exceed_27_bits :
    (nextD (push (freshDecoder false) [0xC0, 0x80, 0x80, 0x80, 0x7F])).1 =
      .ok (some (.localTimestamp1 266338304 .sync)) ∧
    ¬ 266338304 < 2 ^ 27 :=
  ⟨by decide, by decide⟩

/-- C8 amended: a LocalTimestamp stub with a continuation-terminated
payload of cnt bytes in the buffer emits LocalTimestamp1 with ts =
extract_timestamp(payload, 27), and that value is below 2 to the 7*cnt
(so below 2 to the 28, not 2 to the 27, for the payloads of up to four
bytes that conforming traces produce; pull_payload itself never limits
cnt to 4). The bound cnt at most 10 keeps every shift of the u64
source in range, where the Nat model and the source agree. -/
theorem lts1_ts_bounded_by_payload_bits (s : DecoderState) (dr : TimestampDataRelation)
    (cnt : Nat) (hcnt : payloadLen s.buffer = some cnt) (hcnt10 : cnt ≤ 10) :
    (processStub s (.localTimestamp dr)).1 =
      .ok (some (.localTimestamp1
        (extractTimestamp (pullBytesList cnt s.buffer).1 27) dr)) ∧
    extractTimestamp (pullBytesList cnt s.buffer).1 27 < 2 ^ (7 * cnt) := by
  constructor
  · simp [processStub, hcnt]
  · have h := extractTimestamp_lt (pullBytesList cnt s.buffer).1 27
    rwa [pullBytesList_fst_length] at h

/-- C8 witness: a one-byte payload 0x7F yields ts = 127, below 2 to
the 7. -/
theorem lts1_ts_bounded_by_payload_bits_witness :
    (processStub (push (freshDecoder false) [0x7F]) (.localTimestamp .sync)).1 =
      .ok (some (.localTimestamp1
        (extractTimestamp (pullBytesList 1 (push (freshDecoder false) [0x7F]).buffer).1 27)
        .sync)) ∧
    extractTimestamp (pullBytesList 1 (push (freshDecoder false) [0x7F]).buffer).1 27 <
      2 ^ (7 * 1) :=
  lts1_ts_bounded_by_payload_bits (push (freshDecoder false) [0x7F]) .sync 1
    (by decide) (by decide)

/-- C9: the diverged flag is sticky. If the context is diverged, one
iteration of the pull_with_timestamp loop body emits only batches
whose timestamp is diverged and keeps the context diverged; the only
way the flag comes back false is the installation of a new base, which
also clears the pending pair, delta and data relation. -/
theorem diverged_sticky_until_new_base (og : Bool) (ctx : TimestampedContext)
    (r : NextRes) (h : ctx.ts.diverged = true) :
    match pullStep og ctx r with
    | .emit out ctx2 => out.timestamp.diverged = true ∧ ctx2.ts.diverged = true
    | .stop ctx2 => ctx2.ts.diverged = true
    | .cont ctx2 =>
        ctx2.ts.diverged = true ∨
          (ctx2.gts1 = none ∧ ctx2.gts2 = none ∧ ctx2.ts.delta = none ∧
           ctx2.ts.dataRelation = none ∧ ∃ b, ctx2.ts.base = some b)
    | .crash => True := by
  rcases r with (_ | p) | m | _
  · simpa [pullStep] using h
  · cases p with
    | localTimestamp1 ts dr =>
      cases og
      · simp [pullStep, assocPacketsWithLts, h]
      · simp [pullStep, onlyGtsBatch, h]
    | localTimestamp2 ts =>
      cases og
      · simp [pullStep, assocPacketsWithLts, h]
      · simp [pullStep, onlyGtsBatch, h]
    | globalTimestamp1 ts w c =>
      cases w <;> cases c <;>
        simpa [pullStep] using installBase_diverged _ (by simpa using h)
    | globalTimestamp2 ts =>
      simpa [pullStep] using installBase_diverged _ (by simpa using h)
    | overflow =>
      simpa [pullStep] using installBase_diverged _ (by simp)
    | sync =>
      cases og
      · simpa [pullStep] using installBase_diverged _ (by simpa using h)
      · simp [pullStep, onlyGtsBatch, h]
    | extension page =>
      cases og
      · simpa [pullStep] using installBase_diverged _ (by simpa using h)
      · simp [pullStep, onlyGtsBatch, h]
    | instrumentation port payload =>
      cases og
      · simpa [pullStep] using installBase_diverged _ (by simpa using h)
      · simp [pullStep, onlyGtsBatch, h]
    | eventCounterWrap a b c d e f =>
      cases og
      · simpa [pullStep] using installBase_diverged _ (by simpa using h)
      · simp [pullStep, onlyGtsBatch, h]
    | exceptionTrace e a =>
      cases og
      · simpa [pullStep] using installBase_diverged _ (by simpa using h)
      · simp [pullStep, onlyGtsBatch, h]
    | pcSample pc =>
      cases og
      · simpa [pullStep] using installBase_diverged _ (by simpa using h)
      · simp [pullStep, onlyGtsBatch, h]
    | dataTracePC a b =>
      cases og
      · simpa [pullStep] using installBase_diverged _ (by simpa using h)
      · simp [pullStep, onlyGtsBatch, h]
    | dataTraceAddress a b =>
      cases og
      · simpa [pullStep] using installBase_diverged _ (by simpa using h)
      · simp [pullStep, onlyGtsBatch, h]
    | dataTraceValue a b c =>
      cases og
      · simpa [pullStep] using installBase_diverged _ (by simpa using h)
      · simp [pullStep, onlyGtsBatch, h]
  · simpa [pullStep] using installBase_diverged _ (by simpa using h)
  · simp [pullStep]

/-- C9 witness: a stalling next() result keeps a diverged context
diverged. -/
theorem diverged_sticky_until_new_base_witness :
    ({ packets := [], malformedPackets := [], gts1 := none, gts2 := none,
       ts := { base := none, delta := none, dataRelation := none, diverged := true },
       packetsConsumed := 0 } : TimestampedContext).ts.diverged = true :=
  diverged_sticky_until_new_base false _ (.ok none) rfl

/-- C10: every hardware source stub produced by decode_header carries
a discriminator in 0..=2 or 8..=23, and on those handle_hardware_source
always reaches a returning arm: the final unreachable arm (none in the
model) is dead code for every payload. -/
theorem hardware_disc_never_unreachable (header discId sz : Nat) (payload : List Nat)
    (h : decodeHeader header = .ok (.stub (.hardwareSource discId sz))) :
    (handleHardwareSource discId payload).isSome = true := by
  rcases decodeHeader_hardware_range header discId sz h with hd | hd
  · interval_cases discId <;> rfl
  · obtain ⟨h8, h23⟩ := hd
    interval_cases discId <;> rfl

/-- C10 witness: header 0x05 is an event counter stub with
discriminator 0, and handle_hardware_source returns on it. -/
theorem hardware_disc_never_unreachable_witness :
    (handleHardwareSource 0 []).isSome = true :=
  hardware_disc_never_unreachable 0x05 0 1 [] (by decide)

end ItmDecode
